import Mathlib

/-!
A shallow embedding of `withSlate`
(`packages/core/src/lib/editor/withSlate.ts`): the editor construction
pipeline of the plugin engine, together with the options indirection
layer (`getOption` / `setOption` / `setOptions`) that the function
attaches to the editor.

External collaborators (`getCorePlugins`, `createSlatePlugin`,
`resolvePlugins`, `pipeNormalizeInitialValue`, the document-model
primitives of `@udecode/slate` and the reactive store implementation)
are not part of the file under study; they are embedded as opaque
parameters of an `Env` structure, or — where a claim depends on their
contract — modelled from the spec, as marked on each definition.
-/

namespace Plate

/-- A diagnostic reported through the editor's debug channel
(`editor.api.debug.error(message, code)`). Modelled from the spec: the
diagnostic collaborator `reportError(message, code)` records the report
and must not throw or abort the caller, so a call is embedded as a pure
value appended to the returned diagnostic list. -/
structure Diagnostic where
  message : String
  code : String
deriving DecidableEq, Repr

/-- Reading a field of a finite JavaScript object literal: the value at
the first matching key, or `none` (JavaScript `undefined`) when the key
is absent. -/
def lookup {V : Type} (l : List (String × V)) (k : String) : Option V :=
  (l.find? (fun q => q.1 == k)).map (fun q => q.2)

/-- Modelled from the spec: a per-plugin reactive options store exposes a
state getter, a set of named field getters, a set of named field setters,
a bulk-merge operation and a whole-state replace operation. The state is
a JavaScript object, embedded as a total map from string keys to optional
values (`none` = `undefined`); `declared` lists the fields for which a
named getter/setter pair exists (fixed at store creation). -/
structure RStore (V : Type) where
  declared : List String
  state : String → Option V

/-- Modelled from the spec: the named field setter of a declared field
writes that one field of the store state. -/
def RStore.setField {V : Type} (st : RStore V) (k : String) (v : V) : RStore V :=
  { st with state := fun q => if q == k then some v else st.state q }

/-- Modelled from the spec: the bulk-merge operation merges a plain
mapping into the state, with patch entries taking precedence over
existing fields. -/
def RStore.mergeState {V : Type} (st : RStore V) (m : List (String × V)) : RStore V :=
  { st with
    state := fun q =>
      match lookup m q with
      | some v => some v
      | none => st.state q }

/-- Modelled from the spec: the whole-state replace operation replaces
the state with the result of applying a patch function to the current
state. -/
def RStore.replaceState {V : Type} (st : RStore V)
    (f : (String → Option V) → (String → Option V)) : RStore V :=
  { st with state := f st.state }

/-- A plugin as it sits in the resolved registry: its key, its plain
options bag, and, when a reactive store was declared for it, that store
(`optionsStore`). `editor.getPlugin` (the external lookup
`getSlatePlugin`) produces such a value; the accessors below are the
editor-attached closures of `withSlate` applied after that lookup. -/
structure ResolvedPlugin (V : Type) where
  key : String
  options : String → Option V
  optionsStore : Option (RStore V)

/-- A patch accepted by `editor.setOptions`: a plain mapping (the
JavaScript `typeof options === 'object'` branch) or a function of the
current state (the `typeof options === 'function'` branch). -/
inductive Patch (V : Type) where
  | obj (m : List (String × V))
  | fn (f : (String → Option V) → (String → Option V))

/-- Embeds `editor.getOption` (withSlate.ts lines 133-148): without a
store, a direct read of the plain options bag; with a store, invoke the
named field getter when it exists, otherwise report an
`OPTION_UNDEFINED` diagnostic and return `undefined`. The returned pair
carries the result and the diagnostics emitted by the call. -/
def getOption {V : Type} (p : ResolvedPlugin V) (k : String) :
    Option V × List Diagnostic :=
  match p.optionsStore with
  | none => (p.options k, [])
  | some st =>
    if k ∈ st.declared then
      (st.state k, [])
    else
      (none,
        [{ message := "editor.getOption: " ++ k ++
            " option is not defined in plugin " ++ p.key ++ ".",
           code := "OPTION_UNDEFINED" }])

/-- Embeds `editor.setOption` (withSlate.ts lines 149-164): without a
store, return immediately (no-op); with a store, invoke the named field
setter when it exists, otherwise report an `OPTION_UNDEFINED` diagnostic
and leave the state unchanged. -/
def setOption {V : Type} (p : ResolvedPlugin V) (k : String) (v : V) :
    ResolvedPlugin V × List Diagnostic :=
  match p.optionsStore with
  | none => (p, [])
  | some st =>
    if k ∈ st.declared then
      ({ p with optionsStore := some (st.setField k v) }, [])
    else
      (p,
        [{ message := "editor.setOption: " ++ k ++
            " option is not defined in plugin " ++ p.key ++ ".",
           code := "OPTION_UNDEFINED" }])

/-- Embeds `editor.setOptions` (withSlate.ts lines 165-174): without a
store, return immediately (no-op); with a store, `mergeState` for a
plain-mapping patch and whole-state replace for a function patch. -/
def setOptions {V : Type} (p : ResolvedPlugin V) (patch : Patch V) :
    ResolvedPlugin V :=
  match p.optionsStore with
  | none => p
  | some st =>
    match patch with
    | .obj m => { p with optionsStore := some (st.mergeState m) }
    | .fn f => { p with optionsStore := some (st.replaceState f) }

/-- The editor object, restricted to the fields `withSlate` itself reads
or writes. `extra` stands for every other field of the underlying
JavaScript object (document-model internals, registry, operations …):
the frame over which in-place mutation must be transparent. `children`
and `selection` are `Option` because slate leaves them possibly
`undefined`/`null`. -/
structure Editor (N P A T Ω : Type) where
  id : Option Nat
  key : Option Nat
  isFallback : Bool
  children : Option (List N)
  selection : Option (P × P)
  api : A
  transforms : T
  extra : Ω

/-- Embeds `editor.getApi` (withSlate.ts line 114): a closure returning
the editor's whole `api` namespace, whatever plugin argument the caller
passes. -/
def Editor.getApi {N P A T Ω ρ : Type} (e : Editor N P A T Ω) (_plugin : ρ) : A :=
  e.api

/-- Embeds `editor.getTransforms` (withSlate.ts line 115): a closure
returning the editor's whole `transforms` namespace, whatever plugin
argument the caller passes. -/
def Editor.getTransforms {N P A T Ω ρ : Type} (e : Editor N P A T Ω) (_plugin : ρ) : T :=
  e.transforms

/-- The `autoSelect` option: `'start' | 'end' | boolean`. -/
inductive AutoSelect where
  | estart
  | eend
  | btrue
  | bfalse
deriving DecidableEq, Repr

/-- JavaScript truthiness of an `autoSelect` value: only `false` is
falsy. -/
def autoTruthy : AutoSelect → Bool
  | .bfalse => false
  | _ => true

/-- The edge picked by `autoSelect === 'start' ? 'start' : 'end'`. -/
inductive Edge where
  | estart
  | eend
deriving DecidableEq, Repr

/-- The `value` option: a serialized markup string or a structured tree
of nodes. -/
inductive InitValue (N : Type) where
  | str (s : String)
  | tree (v : List N)
deriving DecidableEq, Repr

/-- JavaScript truthiness of the `value` option (used by the
`if (value)` guard before `pipeNormalizeInitialValue`): absent and the
empty string are falsy; every array — even the empty one — is truthy. -/
def valueTruthy {N : Type} : Option (InitValue N) → Bool
  | none => false
  | some (.str s) => !s.isEmpty
  | some (.tree _) => true

/-- The synthetic root plugin descriptor assembled by `withSlate`
(withSlate.ts lines 181-186): fixed key and priority, the caller's
root-level plugin fields (`...pluginConfig`, embedded opaquely as
`extras`), and the child plugin list. `createSlatePlugin` (not in the
file under study) is modelled from the spec as constructing a plugin
instance that carries exactly these config fields. -/
structure RootConfig (χ ε : Type) where
  key : String
  priority : Nat
  extras : ε
  plugins : List χ
deriving DecidableEq, Repr

/-- The options accepted by `withSlate` (after destructuring):
`pluginConfig` is the rest object holding the caller's root-level plugin
fields (`api`, `transforms`, `override`, `inject`,
`normalizeInitialValue`, `options`, …), embedded opaquely. -/
structure WithSlateOptions (N P χ ε : Type) where
  autoSelect : Option AutoSelect := none
  id : Option Nat := none
  maxLength : Option Nat := none
  plugins : List χ := []
  rootPlugin : Option (RootConfig χ ε → RootConfig χ ε) := none
  selection : Option (P × P) := none
  shouldNormalizeEditor : Bool := false
  value : Option (InitValue N) := none
  pluginConfig : ε

/-- The external collaborators consumed by `withSlate`, embedded as
opaque functions: `Math.random` (freshKey), `getCorePlugins`,
`resolvePlugins`, `editor.api.html.deserialize`,
`editor.api.create.value`, `getStartPoint` / `getEndPoint` (as functions
of the editor's children), `pipeNormalizeInitialValue` and
`normalizeEditor`. -/
structure Env (N P A T Ω χ ε : Type) where
  freshKey : Nat
  getCorePlugins : Option Nat → List χ → List χ
  resolvePlugins : Editor N P A T Ω → List (RootConfig χ ε) → Editor N P A T Ω
  deserialize : String → List N
  createValue : List N
  startPoint : Option (List N) → P
  endPoint : Option (List N) → P
  pipeNormalizeInitialValue : Editor N P A T Ω → Editor N P A T Ω
  normalizeEditor : Editor N P A T Ω → Editor N P A T Ω

/-- Construction events, in the order the pipeline performs them; the
trace returned next to the editor records what `withSlate` did. -/
inductive Event (χ ε : Type) where
  | resolve (roots : List (RootConfig χ ε))
  | setChildrenFromString (s : String)
  | setChildrenFromTree
  | emptyFallback
  | setSelectionExplicit
  | autoSelectAt (edge : Edge)
  | pipeNormalize
  | normalizeForce
deriving DecidableEq, Repr

/-- Whether an event is a resolution run. -/
def Event.isResolve {χ ε : Type} : Event χ ε → Bool
  | .resolve _ => true
  | _ => false

/-- Whether an event belongs to content or selection seeding. -/
def Event.isSeeding {χ ε : Type} : Event χ ε → Bool
  | .setChildrenFromString _ => true
  | .setChildrenFromTree => true
  | .emptyFallback => true
  | .setSelectionExplicit => true
  | .autoSelectAt _ => true
  | _ => false

variable {N P A T Ω χ ε : Type}

/-- Embeds withSlate.ts lines 110-112: `editor.id = id ?? editor.id`,
`editor.key = editor.key ?? Math.random()`, `editor.isFallback = false`. -/
def assignIdentity (env : Env N P A T Ω χ ε) (cfg : WithSlateOptions N P χ ε)
    (e : Editor N P A T Ω) : Editor N P A T Ω :=
  { e with
    id := match cfg.id with
      | some i => some i
      | none => e.id
    key := match e.key with
      | some k => some k
      | none => some env.freshKey
    isFallback := false }

/-- Embeds withSlate.ts lines 176-191: assemble the synthetic root
descriptor (core plugins first, then user plugins, priority 10000, the
caller's root-level fields spread onto it) and apply the optional
`rootPlugin` configurator. -/
def rootPluginInstance (env : Env N P A T Ω χ ε)
    (cfg : WithSlateOptions N P χ ε) : RootConfig χ ε :=
  let base : RootConfig χ ε :=
    { key := "root"
      priority := 10000
      extras := cfg.pluginConfig
      plugins := env.getCorePlugins cfg.maxLength cfg.plugins ++ cfg.plugins }
  match cfg.rootPlugin with
  | some f => f base
  | none => base

/-- Embeds withSlate.ts lines 197-201: content seeding. A string value
is deserialized through `editor.api.html.deserialize`; a structured tree
is installed directly; no value leaves the children untouched. -/
def seedContent (env : Env N P A T Ω χ ε) (cfg : WithSlateOptions N P χ ε)
    (e : Editor N P A T Ω) : Editor N P A T Ω × List (Event χ ε) :=
  match cfg.value with
  | some (.str s) =>
    ({ e with children := some (env.deserialize s) }, [.setChildrenFromString s])
  | some (.tree v) =>
    ({ e with children := some v }, [.setChildrenFromTree])
  | none => (e, [])

/-- Embeds withSlate.ts lines 202-204: when
`editor.children?.length === 0` the default document from
`editor.api.create.value()` is installed. -/
def emptyFallbackStep (env : Env N P A T Ω χ ε)
    (e : Editor N P A T Ω) : Editor N P A T Ω × List (Event χ ε) :=
  match e.children with
  | some l =>
    if l.isEmpty then
      ({ e with children := some env.createValue }, [.emptyFallback])
    else
      (e, [])
  | none => (e, [])

/-- Embeds withSlate.ts lines 205-212: selection seeding. An explicit
selection is installed as-is; otherwise a truthy `autoSelect` installs a
collapsed selection at the start or end point of the document
(`select(editor, target)` with a point collapses both ends there). -/
def seedSelection (env : Env N P A T Ω χ ε) (cfg : WithSlateOptions N P χ ε)
    (e : Editor N P A T Ω) : Editor N P A T Ω × List (Event χ ε) :=
  match cfg.selection with
  | some sel => ({ e with selection := some sel }, [.setSelectionExplicit])
  | none =>
    match cfg.autoSelect with
    | some a =>
      if autoTruthy a then
        let edge := if a = AutoSelect.estart then Edge.estart else Edge.eend
        let target :=
          match edge with
          | .estart => env.startPoint e.children
          | .eend => env.endPoint e.children
        ({ e with selection := some (target, target) }, [.autoSelectAt edge])
      else (e, [])
    | none => (e, [])

/-- Embeds `withSlate` (withSlate.ts lines 88-225): identity assignment,
root assembly, resolution, content seeding, empty-content fallback,
selection seeding, the `if (value)`-guarded initial-value normalization
pass, and the optional forced normalization. Returns the mutated editor
together with the trace of construction events. -/
def withSlate (env : Env N P A T Ω χ ε) (cfg : WithSlateOptions N P χ ε)
    (e : Editor N P A T Ω) : Editor N P A T Ω × List (Event χ ε) :=
  let e1 := assignIdentity env cfg e
  let root := rootPluginInstance env cfg
  let e2 := env.resolvePlugins e1 [root]
  let s3 := seedContent env cfg e2
  let s4 := emptyFallbackStep env s3.1
  let s5 := seedSelection env cfg s4.1
  let e6 := if valueTruthy cfg.value then env.pipeNormalizeInitialValue s5.1 else s5.1
  let t6 : List (Event χ ε) := if valueTruthy cfg.value then [.pipeNormalize] else []
  let e7 := if cfg.shouldNormalizeEditor then env.normalizeEditor e6 else e6
  let t7 : List (Event χ ε) := if cfg.shouldNormalizeEditor then [.normalizeForce] else []
  (e7, Event.resolve [root] :: (s3.2 ++ s4.2 ++ s5.2 ++ t6 ++ t7))

/-- An editor-mutating collaborator that leaves the document children
untouched (the contract the spec gives resolution and normalization
collaborators relative to content seeding). -/
def PreservesChildren (f : Editor N P A T Ω → Editor N P A T Ω) : Prop :=
  ∀ x, (f x).children = x.children

/-- An editor-mutating collaborator that leaves the selection
untouched. -/
def PreservesSelection (f : Editor N P A T Ω → Editor N P A T Ω) : Prop :=
  ∀ x, (f x).selection = x.selection

/-- An editor-mutating collaborator that touches neither the identity
fields (`id`, `key`, `isFallback`) nor the frame field `extra` (the
spec scopes collaborator side effects to the capability namespaces,
registry and document). -/
def PreservesMeta (f : Editor N P A T Ω → Editor N P A T Ω) : Prop :=
  ∀ x, (f x).id = x.id ∧ (f x).key = x.key ∧
    (f x).isFallback = x.isFallback ∧ (f x).extra = x.extra

/-! Concrete instances used by witnesses and counterexamples. -/

/-- A plugin backed by a plain options bag (no reactive store). -/
def bagPlugin : ResolvedPlugin Nat :=
  { key := "bag"
    options := fun q => if q == "a" then some 7 else none
    optionsStore := none }

/-- A plugin backed by a reactive store with one declared field "a". -/
def storePlugin : ResolvedPlugin Nat :=
  { key := "demo"
    options := fun _ => none
    optionsStore := some
      { declared := ["a"]
        state := fun q => if q == "a" then some 0 else none } }

/-- A concrete collaborator environment where every external function is
inert, used to evaluate the pipeline on closed inputs. -/
def env0 : Env Nat Nat Unit Unit Unit Unit Unit :=
  { freshKey := 42
    getCorePlugins := fun _ l => l
    resolvePlugins := fun x _ => x
    deserialize := fun _ => []
    createValue := [1]
    startPoint := fun _ => 0
    endPoint := fun _ => 9
    pipeNormalizeInitialValue := fun x => x
    normalizeEditor := fun x => x }

/-- A concrete bare editor, before construction. -/
def editor0 : Editor Nat Nat Unit Unit Unit :=
  { id := none
    key := none
    isFallback := true
    children := none
    selection := none
    api := ()
    transforms := ()
    extra := () }

/-- Options requesting `autoSelect: 'start'` over a structured value. -/
def cfgStart : WithSlateOptions Nat Nat Unit Unit :=
  { autoSelect := some AutoSelect.estart
    value := some (InitValue.tree [5])
    pluginConfig := () }

/-- Options supplying an empty structured value. -/
def cfgEmptyTree : WithSlateOptions Nat Nat Unit Unit :=
  { value := some (InitValue.tree [])
    pluginConfig := () }

/-- Options supplying the empty markup string as value. -/
def cfgEmptyString : WithSlateOptions Nat Nat Unit Unit :=
  { value := some (InitValue.str "")
    pluginConfig := () }

/-- Options supplying nothing at all. -/
def cfgBare : WithSlateOptions Nat Nat Unit Unit :=
  { pluginConfig := () }

/-- Options supplying an id. -/
def cfgWithId : WithSlateOptions Nat Nat Unit Unit :=
  { id := some 3
    pluginConfig := () }

/-- The editor after identity assignment, root assembly and resolution
(withSlate.ts up to line 195). -/
def stage2 (env : Env N P A T Ω χ ε) (cfg : WithSlateOptions N P χ ε)
    (e : Editor N P A T Ω) : Editor N P A T Ω :=
  env.resolvePlugins (assignIdentity env cfg e) [rootPluginInstance env cfg]

/-- The editor after content seeding and the empty-content fallback
(withSlate.ts up to line 204). -/
def stage4 (env : Env N P A T Ω χ ε) (cfg : WithSlateOptions N P χ ε)
    (e : Editor N P A T Ω) : Editor N P A T Ω :=
  (emptyFallbackStep env (seedContent env cfg (stage2 env cfg e)).1).1

/-- The editor after selection seeding (withSlate.ts up to line 212). -/
def stage5 (env : Env N P A T Ω χ ε) (cfg : WithSlateOptions N P χ ε)
    (e : Editor N P A T Ω) : Editor N P A T Ω :=
  (seedSelection env cfg (stage4 env cfg e)).1

/-! Theorems for the options indirection layer. -/

/-- Claim C1: for a plugin resolved with a reactive options store,
setting a field of the store and then getting the same field returns the
written value; for a plugin backed by a plain options bag (no store),
`setOption` is a no-op and `getOption` returns the original default
value from the bag. -/
theorem c1_option_indirection {V : Type} (p : ResolvedPlugin V) (k : String) (v : V) :
    (∀ st, p.optionsStore = some st → k ∈ st.declared →
      (getOption (setOption p k v).1 k).1 = some v) ∧
    (p.optionsStore = none →
      (setOption p k v).1 = p ∧ (getOption p k).1 = p.options k) := by
  constructor
  · intro st hs hk
    simp [setOption, getOption, hs, hk, RStore.setField]
  · intro hs
    simp [setOption, getOption, hs]

/-- Witness for C1 at concrete plugins (reactive and plain-bag). -/
theorem c1_option_indirection_witness :
    (getOption (setOption storePlugin "a" 5).1 "a").1 = some 5 ∧
    (setOption bagPlugin "a" 5).1 = bagPlugin ∧
    (getOption bagPlugin "a").1 = bagPlugin.options "a" :=
  ⟨(c1_option_indirection storePlugin "a" 5).1 _ rfl (by decide),
   ((c1_option_indirection bagPlugin "a" 5).2 rfl).1,
   ((c1_option_indirection bagPlugin "a" 5).2 rfl).2⟩

/-- Claim C2: with a reactive store, accessing a field key not declared
on the store through `getOption` reports an `OPTION_UNDEFINED`
diagnostic and returns `undefined`, and through `setOption` reports an
`OPTION_UNDEFINED` diagnostic and leaves the plugin — hence the store
state — unchanged; both calls return normally (they are total functions
into result-diagnostic pairs, never throwing). -/
theorem c2_undeclared_access {V : Type} (p : ResolvedPlugin V) (st : RStore V)
    (k : String) (v : V) (hs : p.optionsStore = some st) (hk : k ∉ st.declared) :
    (getOption p k).1 = none ∧
    (getOption p k).2.map Diagnostic.code = ["OPTION_UNDEFINED"] ∧
    (setOption p k v).1 = p ∧
    (setOption p k v).2.map Diagnostic.code = ["OPTION_UNDEFINED"] := by
  refine ⟨?_, ?_, ?_, ?_⟩ <;> simp [getOption, setOption, hs, hk]

/-- Witness for C2 at a concrete store plugin and undeclared key. -/
theorem c2_undeclared_access_witness :
    (getOption storePlugin "zz").1 = none ∧
    (getOption storePlugin "zz").2.map Diagnostic.code = ["OPTION_UNDEFINED"] ∧
    (setOption storePlugin "zz" 5).1 = storePlugin ∧
    (setOption storePlugin "zz" 5).2.map Diagnostic.code = ["OPTION_UNDEFINED"] :=
  c2_undeclared_access storePlugin _ "zz" 5 rfl (by decide)

/-- Claim C7: with a reactive store, `setOptions` with a plain-mapping
patch merges the patch into the store state (patch entries win, every
other field is kept, the declared fields are unchanged), and with a
function patch replaces the whole state with the function applied to the
current state; with a plain bag, `setOptions` is a no-op. -/
theorem c7_setOptions_dispatch {V : Type} (p : ResolvedPlugin V) :
    (∀ st m, p.optionsStore = some st →
      ∃ st2, (setOptions p (Patch.obj m)).optionsStore = some st2 ∧
        st2.declared = st.declared ∧
        ∀ q, st2.state q =
          match lookup m q with
          | some w => some w
          | none => st.state q) ∧
    (∀ st f, p.optionsStore = some st →
      ∃ st2, (setOptions p (Patch.fn f)).optionsStore = some st2 ∧
        st2.declared = st.declared ∧ st2.state = f st.state) ∧
    (p.optionsStore = none → ∀ patch, setOptions p patch = p) := by
  refine ⟨?_, ?_, ?_⟩
  · intro st m hs
    exact ⟨st.mergeState m, by simp [setOptions, hs], rfl, fun q => rfl⟩
  · intro st f hs
    exact ⟨st.replaceState f, by simp [setOptions, hs], rfl, rfl⟩
  · intro hs patch
    cases patch <;> simp [setOptions, hs]

/-- Witness for C7: merging writes the patched field on the reactive
store; the plain-bag plugin is untouched. -/
theorem c7_setOptions_dispatch_witness :
    ((setOptions storePlugin (Patch.obj [("a", 9)])).optionsStore.map
      (fun st => st.state "a")) = some (some 9) ∧
    setOptions bagPlugin (Patch.obj [("a", 9)]) = bagPlugin := by
  constructor
  · obtain ⟨st2, h1, _, h3⟩ :=
      (c7_setOptions_dispatch storePlugin).1 _ [("a", 9)] rfl
    have hq := h3 "a"
    simp [lookup] at hq
    simp [h1, hq]
  · exact (c7_setOptions_dispatch bagPlugin).2.2 rfl _

/-- Claim C9: the attached `getApi` and `getTransforms` ignore their
plugin argument entirely: for every plugin reference they return the
editor's whole `api` / `transforms` namespace, not a per-plugin
slice. -/
theorem c9_getApi_ignores_argument {N P A T Ω ρ : Type}
    (e : Editor N P A T Ω) (p q : ρ) :
    e.getApi p = e.api ∧ e.getApi p = e.getApi q ∧
    e.getTransforms p = e.transforms ∧ e.getTransforms p = e.getTransforms q :=
  ⟨rfl, rfl, rfl, rfl⟩

/-! Helper lemmas about the pipeline steps. -/

variable (env : Env N P A T Ω χ ε) (cfg : WithSlateOptions N P χ ε)

theorem assignIdentity_children (e : Editor N P A T Ω) :
    (assignIdentity env cfg e).children = e.children := rfl

theorem assignIdentity_selection (e : Editor N P A T Ω) :
    (assignIdentity env cfg e).selection = e.selection := rfl

theorem assignIdentity_extra (e : Editor N P A T Ω) :
    (assignIdentity env cfg e).extra = e.extra := rfl

theorem seedContent_fst_selection (x : Editor N P A T Ω) :
    (seedContent env cfg x).1.selection = x.selection := by
  unfold seedContent
  rcases cfg.value with _ | iv
  · rfl
  · cases iv <;> rfl

theorem seedContent_fst_meta (x : Editor N P A T Ω) :
    (seedContent env cfg x).1.id = x.id ∧ (seedContent env cfg x).1.key = x.key ∧
    (seedContent env cfg x).1.isFallback = x.isFallback ∧
    (seedContent env cfg x).1.extra = x.extra := by
  unfold seedContent
  rcases cfg.value with _ | iv
  · exact ⟨rfl, rfl, rfl, rfl⟩
  · cases iv <;> exact ⟨rfl, rfl, rfl, rfl⟩

theorem seedContent_snd_cases (x : Editor N P A T Ω) :
    (seedContent env cfg x).2 = ([] : List (Event χ ε)) ∨
    (∃ s, (seedContent env cfg x).2 = [Event.setChildrenFromString s]) ∨
    (seedContent env cfg x).2 = [Event.setChildrenFromTree] := by
  unfold seedContent
  rcases cfg.value with _ | iv
  · exact Or.inl rfl
  · cases iv with
    | str s => exact Or.inr (Or.inl ⟨s, rfl⟩)
    | tree v => exact Or.inr (Or.inr rfl)

theorem emptyFallbackStep_fst_selection (x : Editor N P A T Ω) :
    (emptyFallbackStep env x).1.selection = x.selection := by
  cases hx : x.children with
  | none => simp [emptyFallbackStep, hx]
  | some l => by_cases h : l.isEmpty <;> simp [emptyFallbackStep, hx, h]

theorem emptyFallbackStep_fst_meta (x : Editor N P A T Ω) :
    (emptyFallbackStep env x).1.id = x.id ∧ (emptyFallbackStep env x).1.key = x.key ∧
    (emptyFallbackStep env x).1.isFallback = x.isFallback ∧
    (emptyFallbackStep env x).1.extra = x.extra := by
  cases hx : x.children with
  | none => simp [emptyFallbackStep, hx]
  | some l => by_cases h : l.isEmpty <;> simp [emptyFallbackStep, hx, h]

theorem emptyFallbackStep_snd_cases (x : Editor N P A T Ω) :
    (emptyFallbackStep env x).2 = ([] : List (Event χ ε)) ∨
    (emptyFallbackStep env x).2 = [Event.emptyFallback] := by
  cases hx : x.children with
  | none => exact Or.inl (by simp [emptyFallbackStep, hx])
  | some l =>
    by_cases h : l.isEmpty
    · exact Or.inr (by simp [emptyFallbackStep, hx, h])
    · exact Or.inl (by simp [emptyFallbackStep, hx, h])

theorem emptyFallbackStep_not_empty (x : Editor N P A T Ω)
    (hcv : env.createValue ≠ []) :
    (emptyFallbackStep env x).1.children ≠ some ([] : List N) := by
  cases hx : x.children with
  | none => simp [emptyFallbackStep, hx, hx]
  | some l =>
    by_cases h : l.isEmpty
    · simp [emptyFallbackStep, hx, h, hcv]
    · simp only [emptyFallbackStep, hx, h, if_neg, Bool.false_eq_true, not_false_eq_true]
      simp only [List.isEmpty_iff] at h
      simp [h]

theorem emptyFallbackStep_of_empty (x : Editor N P A T Ω)
    (hx : x.children = some ([] : List N)) :
    (emptyFallbackStep env x).1.children = some env.createValue := by
  simp [emptyFallbackStep, hx]

theorem emptyFallbackStep_of_absent (x : Editor N P A T Ω)
    (hx : x.children = none) :
    emptyFallbackStep env x = (x, ([] : List (Event χ ε))) := by
  simp [emptyFallbackStep, hx]

theorem seedSelection_fst_children (x : Editor N P A T Ω) :
    (seedSelection env cfg x).1.children = x.children := by
  cases hs : cfg.selection with
  | some sel => simp [seedSelection, hs]
  | none =>
    cases ha : cfg.autoSelect with
    | none => simp [seedSelection, hs, ha]
    | some a => by_cases h : autoTruthy a <;> simp [seedSelection, hs, ha, h]

theorem seedSelection_fst_meta (x : Editor N P A T Ω) :
    (seedSelection env cfg x).1.id = x.id ∧ (seedSelection env cfg x).1.key = x.key ∧
    (seedSelection env cfg x).1.isFallback = x.isFallback ∧
    (seedSelection env cfg x).1.extra = x.extra := by
  cases hs : cfg.selection with
  | some sel => simp [seedSelection, hs]
  | none =>
    cases ha : cfg.autoSelect with
    | none => simp [seedSelection, hs, ha]
    | some a => by_cases h : autoTruthy a <;> simp [seedSelection, hs, ha, h]

theorem seedSelection_snd_cases (x : Editor N P A T Ω) :
    (seedSelection env cfg x).2 = ([] : List (Event χ ε)) ∨
    (seedSelection env cfg x).2 = [Event.setSelectionExplicit] ∨
    (∃ ed, (seedSelection env cfg x).2 = [Event.autoSelectAt ed]) := by
  cases hs : cfg.selection with
  | some sel => exact Or.inr (Or.inl (by simp [seedSelection, hs]))
  | none =>
    cases ha : cfg.autoSelect with
    | none => exact Or.inl (by simp [seedSelection, hs, ha])
    | some a =>
      by_cases h : autoTruthy a
      · refine Or.inr (Or.inr ⟨if a = AutoSelect.estart then Edge.estart else Edge.eend, ?_⟩)
        simp [seedSelection, hs, ha, h]
      · exact Or.inl (by simp [seedSelection, hs, ha, h])

theorem seedSelection_explicit (x : Editor N P A T Ω) (sel : P × P)
    (h : cfg.selection = some sel) :
    (seedSelection env cfg x).1.selection = some sel := by
  simp [seedSelection, h]

theorem seedSelection_auto_start (x : Editor N P A T Ω)
    (h : cfg.selection = none) (ha : cfg.autoSelect = some AutoSelect.estart) :
    (seedSelection env cfg x).1.selection =
      some (env.startPoint x.children, env.startPoint x.children) := by
  simp [seedSelection, h, ha, autoTruthy]

theorem seedSelection_auto_end (x : Editor N P A T Ω)
    (h : cfg.selection = none)
    (ha : cfg.autoSelect = some AutoSelect.eend ∨ cfg.autoSelect = some AutoSelect.btrue) :
    (seedSelection env cfg x).1.selection =
      some (env.endPoint x.children, env.endPoint x.children) := by
  rcases ha with ha | ha <;> simp [seedSelection, h, ha, autoTruthy]

theorem seedSelection_noauto (x : Editor N P A T Ω)
    (h : cfg.selection = none) (ha : cfg.autoSelect = none) :
    (seedSelection env cfg x).1 = x ∧ (seedSelection env cfg x).2 = [] := by
  constructor <;> simp [seedSelection, h, ha]

theorem withSlate_fst_eq (e : Editor N P A T Ω) :
    (withSlate env cfg e).1 =
      (if cfg.shouldNormalizeEditor then
        env.normalizeEditor (if valueTruthy cfg.value then
          env.pipeNormalizeInitialValue (stage5 env cfg e) else stage5 env cfg e)
      else (if valueTruthy cfg.value then
        env.pipeNormalizeInitialValue (stage5 env cfg e) else stage5 env cfg e)) := rfl

theorem withSlate_snd_eq (e : Editor N P A T Ω) :
    (withSlate env cfg e).2 =
      Event.resolve [rootPluginInstance env cfg] ::
        ((seedContent env cfg (stage2 env cfg e)).2 ++
         (emptyFallbackStep env (seedContent env cfg (stage2 env cfg e)).1).2 ++
         (seedSelection env cfg (stage4 env cfg e)).2 ++
         (if valueTruthy cfg.value then [Event.pipeNormalize] else []) ++
         (if cfg.shouldNormalizeEditor then [Event.normalizeForce] else [])) := rfl

theorem withSlate_fst_selection (e : Editor N P A T Ω)
    (hpns : PreservesSelection env.pipeNormalizeInitialValue)
    (hnes : PreservesSelection env.normalizeEditor) :
    (withSlate env cfg e).1.selection = (stage5 env cfg e).selection := by
  simp only [PreservesSelection] at hpns hnes
  rw [withSlate_fst_eq]
  split <;> split <;> simp [hpns, hnes]

theorem withSlate_fst_children (e : Editor N P A T Ω)
    (hpnc : PreservesChildren env.pipeNormalizeInitialValue)
    (hnec : PreservesChildren env.normalizeEditor) :
    (withSlate env cfg e).1.children = (stage4 env cfg e).children := by
  simp only [PreservesChildren] at hpnc hnec
  rw [withSlate_fst_eq]
  have h5 : (stage5 env cfg e).children = (stage4 env cfg e).children :=
    seedSelection_fst_children env cfg _
  split <;> split <;> simp [hpnc, hnec, h5]

/-! Theorems for the construction pipeline claims. -/

/-- Claim C3: an explicit selection is installed as-is (`autoSelect` is
ignored); otherwise `autoSelect: 'start'` installs a selection collapsed
at the document's start point, `'end'` or `true` one collapsed at the
end point, and with neither option the selection is left untouched. The
hypotheses are the collaborator contracts: resolution and the two
normalization passes do not move the selection or the document
children. -/
theorem c3_selection_seeding (env : Env N P A T Ω χ ε)
    (cfg : WithSlateOptions N P χ ε) (e : Editor N P A T Ω)
    (hress : ∀ r, PreservesSelection (fun x => env.resolvePlugins x r))
    (hpns : PreservesSelection env.pipeNormalizeInitialValue)
    (hnes : PreservesSelection env.normalizeEditor)
    (hpnc : PreservesChildren env.pipeNormalizeInitialValue)
    (hnec : PreservesChildren env.normalizeEditor) :
    (∀ sel, cfg.selection = some sel → (withSlate env cfg e).1.selection = some sel) ∧
    (cfg.selection = none → cfg.autoSelect = some AutoSelect.estart →
      (withSlate env cfg e).1.selection =
        some (env.startPoint (withSlate env cfg e).1.children,
          env.startPoint (withSlate env cfg e).1.children)) ∧
    (cfg.selection = none →
      (cfg.autoSelect = some AutoSelect.eend ∨ cfg.autoSelect = some AutoSelect.btrue) →
      (withSlate env cfg e).1.selection =
        some (env.endPoint (withSlate env cfg e).1.children,
          env.endPoint (withSlate env cfg e).1.children)) ∧
    (cfg.selection = none → cfg.autoSelect = none →
      (withSlate env cfg e).1.selection = e.selection) := by
  have hsel := withSlate_fst_selection env cfg e hpns hnes
  have hch := withSlate_fst_children env cfg e hpnc hnec
  refine ⟨?_, ?_, ?_, ?_⟩
  · intro sel h
    rw [hsel, stage5, seedSelection_explicit env cfg _ sel h]
  · intro h ha
    rw [hsel, stage5, seedSelection_auto_start env cfg _ h ha, hch]
  · intro h ha
    rw [hsel, stage5, seedSelection_auto_end env cfg _ h ha, hch]
  · intro h ha
    rw [hsel, stage5, (seedSelection_noauto env cfg _ h ha).1, stage4]
    calc (emptyFallbackStep env (seedContent env cfg (stage2 env cfg e)).1).1.selection
        = (seedContent env cfg (stage2 env cfg e)).1.selection :=
          emptyFallbackStep_fst_selection env _
      _ = (stage2 env cfg e).selection := seedContent_fst_selection env cfg _
      _ = (assignIdentity env cfg e).selection := hress _ _
      _ = e.selection := assignIdentity_selection env cfg e

/-- Witness for C3: with inert collaborators and `autoSelect: 'start'`,
construction yields a selection collapsed at the start point of the
resulting document. -/
theorem c3_selection_seeding_witness :
    (withSlate env0 cfgStart editor0).1.selection =
      some (env0.startPoint (withSlate env0 cfgStart editor0).1.children,
        env0.startPoint (withSlate env0 cfgStart editor0).1.children) :=
  (c3_selection_seeding env0 cfgStart editor0
    (fun _ _ => rfl) (fun _ => rfl) (fun _ => rfl) (fun _ => rfl) (fun _ => rfl)).2.1
    rfl rfl

/-- Claim C4: a construction call whose initial structured value is the
empty document yields the (non-empty, by the collaborator contract)
default document produced by `create.value`; and no construction call
returns an editor whose children are the empty list. Hypotheses are the
collaborator contracts: `create.value` produces a non-empty document and
the normalization passes leave the children untouched. -/
theorem c4_empty_fallback (env : Env N P A T Ω χ ε)
    (cfg : WithSlateOptions N P χ ε) (e : Editor N P A T Ω)
    (hcv : env.createValue ≠ [])
    (hpnc : PreservesChildren env.pipeNormalizeInitialValue)
    (hnec : PreservesChildren env.normalizeEditor) :
    (cfg.value = some (InitValue.tree []) →
      (withSlate env cfg e).1.children = some env.createValue) ∧
    (withSlate env cfg e).1.children ≠ some [] := by
  have hch := withSlate_fst_children env cfg e hpnc hnec
  constructor
  · intro hv
    rw [hch, stage4]
    have h3 : (seedContent env cfg (stage2 env cfg e)).1.children = some [] := by
      simp [seedContent, hv]
    exact emptyFallbackStep_of_empty env _ h3
  · rw [hch, stage4]
    exact emptyFallbackStep_not_empty env _ hcv

/-- Witness for C4: with an inert environment whose default document is
`[1]`, constructing over the empty tree yields exactly that document. -/
theorem c4_empty_fallback_witness :
    (withSlate env0 cfgEmptyTree editor0).1.children = some env0.createValue ∧
    (withSlate env0 cfgEmptyTree editor0).1.children ≠ some [] :=
  ⟨(c4_empty_fallback env0 cfgEmptyTree editor0 (by decide)
      (fun _ => rfl) (fun _ => rfl)).1 rfl,
   (c4_empty_fallback env0 cfgEmptyTree editor0 (by decide)
      (fun _ => rfl) (fun _ => rfl)).2⟩

/-- Claim C5: the core plugins (parameterized by `maxLength`) come
before the user plugins as children of one synthetic root descriptor
with key "root" and maximal priority 10000 whose own fields are the
caller-supplied root-level plugin config, and resolution is run exactly
once, against exactly this root (stated for a call without a
`rootPlugin` configurator, which would rewrite the root before
resolution). -/
theorem c5_root_assembly (env : Env N P A T Ω χ ε)
    (cfg : WithSlateOptions N P χ ε) (e : Editor N P A T Ω)
    (hrp : cfg.rootPlugin = none) :
    (withSlate env cfg e).2.filter Event.isResolve =
      [Event.resolve [{
          key := "root"
          priority := 10000
          extras := cfg.pluginConfig
          plugins := env.getCorePlugins cfg.maxLength cfg.plugins ++
            cfg.plugins }]] := by
  have hroot : rootPluginInstance env cfg =
      { key := "root", priority := 10000, extras := cfg.pluginConfig,
        plugins := env.getCorePlugins cfg.maxLength cfg.plugins ++ cfg.plugins } := by
    simp [rootPluginInstance, hrp]
  have hnil : ((seedContent env cfg (stage2 env cfg e)).2 ++
      (emptyFallbackStep env (seedContent env cfg (stage2 env cfg e)).1).2 ++
      (seedSelection env cfg (stage4 env cfg e)).2 ++
      (if valueTruthy cfg.value then [Event.pipeNormalize] else []) ++
      (if cfg.shouldNormalizeEditor then [Event.normalizeForce] else [])).filter
        Event.isResolve = [] := by
    rw [List.filter_eq_nil_iff]
    intro ev hev
    simp only [List.mem_append] at hev
    suffices hr : Event.isResolve ev = false by simp [hr]
    rcases hev with ((((h | h) | h) | h) | h)
    · rcases seedContent_snd_cases env cfg (stage2 env cfg e) with hc | ⟨s, hc⟩ | hc <;>
        rw [hc] at h <;> simp_all [Event.isResolve]
    · rcases emptyFallbackStep_snd_cases env (seedContent env cfg (stage2 env cfg e)).1 with hc | hc <;>
        rw [hc] at h <;> simp_all [Event.isResolve]
    · rcases seedSelection_snd_cases env cfg (stage4 env cfg e) with hc | hc | ⟨ed, hc⟩ <;>
        rw [hc] at h <;> simp_all [Event.isResolve]
    · split at h <;> simp_all [Event.isResolve]
    · split at h <;> simp_all [Event.isResolve]
  rw [withSlate_snd_eq, hroot, List.filter_cons_of_pos rfl, hnil]

/-- Witness for C5 at a concrete bare construction call. -/
theorem c5_root_assembly_witness :
    (withSlate env0 cfgBare editor0).2.filter Event.isResolve =
      [Event.resolve [{
          key := "root"
          priority := 10000
          extras := cfgBare.pluginConfig
          plugins := env0.getCorePlugins cfgBare.maxLength cfgBare.plugins ++
            cfgBare.plugins }]] :=
  c5_root_assembly env0 cfgBare editor0 rfl

/-- Counterexample to C6 as stated: the empty markup string is a
supplied initial value — content is seeded from it through the
deserializer — yet the `if (value)` truthiness guard skips the
`pipeNormalizeInitialValue` pass. -/
theorem c6_counterexample :
    cfgEmptyString.value = some (InitValue.str "") ∧
    Event.setChildrenFromString "" ∈ (withSlate env0 cfgEmptyString editor0).2 ∧
    Event.pipeNormalize ∉ (withSlate env0 cfgEmptyString editor0).2 := by
  refine ⟨rfl, ?_, ?_⟩ <;> decide

/-- Claim C6 (amended): the one-time `pipeNormalizeInitialValue` pass
runs — after all content and selection seeding — exactly when the
supplied value is truthy: any structured tree, or a non-empty markup
string. When no value, or the empty markup string, is supplied, the
pass does not run (even though an empty markup string still seeds
content through the deserializer). -/
theorem c6_pipe_normalize_guard (env : Env N P A T Ω χ ε)
    (cfg : WithSlateOptions N P χ ε) (e : Editor N P A T Ω) :
    (valueTruthy cfg.value = true →
      ∃ pre post, (withSlate env cfg e).2 = pre ++ Event.pipeNormalize :: post ∧
        ∀ ev ∈ post, Event.isSeeding ev = false) ∧
    (valueTruthy cfg.value = false →
      Event.pipeNormalize ∉ (withSlate env cfg e).2) := by
  constructor
  · intro hv
    refine ⟨Event.resolve [rootPluginInstance env cfg] ::
        ((seedContent env cfg (stage2 env cfg e)).2 ++
         (emptyFallbackStep env (seedContent env cfg (stage2 env cfg e)).1).2 ++
         (seedSelection env cfg (stage4 env cfg e)).2),
      (if cfg.shouldNormalizeEditor then [Event.normalizeForce] else []), ?_, ?_⟩
    · rw [withSlate_snd_eq, hv]
      simp [List.append_assoc]
    · intro ev hev
      split at hev <;> simp_all [Event.isSeeding]
  · intro hv
    rw [withSlate_snd_eq, hv]
    intro hmem
    simp only [List.mem_cons, List.mem_append] at hmem
    rcases hmem with h | ((((h | h) | h) | h) | h)
    · exact Event.noConfusion h
    · rcases seedContent_snd_cases env cfg (stage2 env cfg e) with hc | ⟨s, hc⟩ | hc <;> rw [hc] at h <;> simp_all
    · rcases emptyFallbackStep_snd_cases env (seedContent env cfg (stage2 env cfg e)).1 with hc | hc <;>
        rw [hc] at h <;> simp_all
    · rcases seedSelection_snd_cases env cfg (stage4 env cfg e) with hc | hc | ⟨ed, hc⟩ <;> rw [hc] at h <;> simp_all
    · simp_all
    · split at h <;> simp_all

/-- Witness for the amended C6: over a truthy structured value the pass
runs after every seeding event. -/
theorem c6_pipe_normalize_guard_witness :
    valueTruthy cfgEmptyTree.value = true ∧
    (∃ pre post, (withSlate env0 cfgEmptyTree editor0).2 =
        pre ++ Event.pipeNormalize :: post ∧
      ∀ ev ∈ post, Event.isSeeding ev = false) :=
  ⟨rfl, (c6_pipe_normalize_guard env0 cfgEmptyTree editor0).1 rfl⟩

/-- Claim C8: construction mutates the given editor in place — every
field it does not write is preserved (`extra`, the frame standing for
the rest of the object), `id` is overridden only when an `id` option is
supplied, `key` gets a fresh random value only when the editor has none
yet, and the editor is marked non-fallback. Hypotheses: the collaborator
contracts that resolution and the normalization passes do not touch the
identity fields or the frame. -/
theorem c8_identity_and_frame (env : Env N P A T Ω χ ε)
    (cfg : WithSlateOptions N P χ ε) (e : Editor N P A T Ω)
    (hres : ∀ r, PreservesMeta (fun x => env.resolvePlugins x r))
    (hpn : PreservesMeta env.pipeNormalizeInitialValue)
    (hne : PreservesMeta env.normalizeEditor) :
    (withSlate env cfg e).1.extra = e.extra ∧
    (withSlate env cfg e).1.id =
      (match cfg.id with | some i => some i | none => e.id) ∧
    (withSlate env cfg e).1.key =
      (match e.key with | some k => some k | none => some env.freshKey) ∧
    (withSlate env cfg e).1.isFallback = false := by
  have hmeta : ∀ f, PreservesMeta f → ∀ x : Editor N P A T Ω,
      (f x).id = x.id ∧ (f x).key = x.key ∧ (f x).isFallback = x.isFallback ∧
      (f x).extra = x.extra := fun f hf x => hf x
  have h5 : (stage5 env cfg e).id = (assignIdentity env cfg e).id ∧
      (stage5 env cfg e).key = (assignIdentity env cfg e).key ∧
      (stage5 env cfg e).isFallback = (assignIdentity env cfg e).isFallback ∧
      (stage5 env cfg e).extra = (assignIdentity env cfg e).extra := by
    have hs5 := seedSelection_fst_meta env cfg (stage4 env cfg e)
    have hs4 := emptyFallbackStep_fst_meta env (seedContent env cfg (stage2 env cfg e)).1
    have hs3 := seedContent_fst_meta env cfg (stage2 env cfg e)
    have hs2 := hres [rootPluginInstance env cfg] (assignIdentity env cfg e)
    rw [stage5, stage4] at *
    refine ⟨?_, ?_, ?_, ?_⟩
    · rw [hs5.1, hs4.1, hs3.1]; exact hs2.1
    · rw [hs5.2.1, hs4.2.1, hs3.2.1]; exact hs2.2.1
    · rw [hs5.2.2.1, hs4.2.2.1, hs3.2.2.1]; exact hs2.2.2.1
    · rw [hs5.2.2.2, hs4.2.2.2, hs3.2.2.2]; exact hs2.2.2.2
  have hfin : (withSlate env cfg e).1.id = (stage5 env cfg e).id ∧
      (withSlate env cfg e).1.key = (stage5 env cfg e).key ∧
      (withSlate env cfg e).1.isFallback = (stage5 env cfg e).isFallback ∧
      (withSlate env cfg e).1.extra = (stage5 env cfg e).extra := by
    rw [withSlate_fst_eq]
    split <;> split <;>
      refine ⟨?_, ?_, ?_, ?_⟩ <;>
        simp [fun x => (hpn x).1, fun x => (hpn x).2.1, fun x => (hpn x).2.2.1,
          fun x => (hpn x).2.2.2, fun x => (hne x).1, fun x => (hne x).2.1,
          fun x => (hne x).2.2.1, fun x => (hne x).2.2.2]
  refine ⟨?_, ?_, ?_, ?_⟩
  · rw [hfin.2.2.2, h5.2.2.2]; rfl
  · rw [hfin.1, h5.1]; rfl
  · rw [hfin.2.1, h5.2.1]; rfl
  · rw [hfin.2.2.1, h5.2.2.1]; rfl

/-- Witness for C8: with an id supplied and no pre-existing key, the
returned editor keeps its frame, takes the supplied id, the fresh key,
and is non-fallback. -/
theorem c8_identity_and_frame_witness :
    (withSlate env0 cfgWithId editor0).1.extra = editor0.extra ∧
    (withSlate env0 cfgWithId editor0).1.id = some 3 ∧
    (withSlate env0 cfgWithId editor0).1.key = some 42 ∧
    (withSlate env0 cfgWithId editor0).1.isFallback = false :=
  c8_identity_and_frame env0 cfgWithId editor0
    (fun _ _ => ⟨rfl, rfl, rfl, rfl⟩) (fun _ => ⟨rfl, rfl, rfl, rfl⟩)
    (fun _ => ⟨rfl, rfl, rfl, rfl⟩)

/-- Claim C10: the empty-document fallback fires only on a present,
empty children list: when no initial value is supplied and the editor's
children field is absent, no default document is synthesized (the
fallback event never occurs) and the editor is returned without
content. Hypotheses: resolution and forced normalization leave the
children untouched. -/
theorem c10_no_fallback_when_children_absent (env : Env N P A T Ω χ ε)
    (cfg : WithSlateOptions N P χ ε) (e : Editor N P A T Ω)
    (hv : cfg.value = none) (hch : e.children = none)
    (hres : ∀ r, PreservesChildren (fun x => env.resolvePlugins x r))
    (hnec : PreservesChildren env.normalizeEditor) :
    (withSlate env cfg e).1.children = none ∧
    Event.emptyFallback ∉ (withSlate env cfg e).2 := by
  have hvt : valueTruthy cfg.value = false := by rw [hv]; rfl
  have h3 : seedContent env cfg (stage2 env cfg e) = (stage2 env cfg e, []) := by
    simp [seedContent, hv]
  have h2 : (stage2 env cfg e).children = none := by
    rw [stage2]
    calc (env.resolvePlugins (assignIdentity env cfg e)
          [rootPluginInstance env cfg]).children
        = (assignIdentity env cfg e).children := hres _ _
      _ = e.children := assignIdentity_children env cfg e
      _ = none := hch
  have h4 : emptyFallbackStep env (seedContent env cfg (stage2 env cfg e)).1 =
      ((seedContent env cfg (stage2 env cfg e)).1, []) := by
    rw [h3]
    exact emptyFallbackStep_of_absent env _ h2
  constructor
  · have hchrw : (withSlate env cfg e).1.children = (stage4 env cfg e).children := by
      rw [withSlate_fst_eq, hvt]
      have h5 : (stage5 env cfg e).children = (stage4 env cfg e).children :=
        seedSelection_fst_children env cfg _
      split <;> simp [hnec _, h5, stage5, seedSelection_fst_children]
    rw [hchrw, stage4, h4, h3, h2]
  · rw [withSlate_snd_eq, hvt]
    intro hmem
    simp only [List.mem_cons, List.mem_append] at hmem
    rcases hmem with h | ((((h | h) | h) | h) | h)
    · exact Event.noConfusion h
    · rw [h3] at h; simp at h
    · rw [h4] at h; simp at h
    · rcases seedSelection_snd_cases env cfg (stage4 env cfg e) with hc | hc | ⟨ed, hc⟩ <;> rw [hc] at h <;> simp_all
    · simp at h
    · split at h <;> simp_all

/-- Witness for C10: a bare construction call over a children-less
editor returns it without content and without the fallback firing. -/
theorem c10_no_fallback_when_children_absent_witness :
    (withSlate env0 cfgBare editor0).1.children = none ∧
    Event.emptyFallback ∉ (withSlate env0 cfgBare editor0).2 :=
  c10_no_fallback_when_children_absent env0 cfgBare editor0 rfl rfl
    (fun _ _ => rfl) (fun _ => rfl)

end Plate
